import Mathlib

/-!
Verification of the manifest-driven component loader and checkpoint-variant
selection protocol described by the diffusers documentation notebooks
("Load pipelines, models, and schedulers" and "Load safetensors").

The notebooks document the behaviour of the external library's
`DiffusionPipeline.from_pretrained`, `save_pretrained`, checkpoint-variant
selection and safetensors loading; the implementation itself is not part of
this repository, so each operation is modelled here from the specification's
words and the claims are settled against these models.
-/

namespace DiffusersLoader

/-- Modelled from the spec: the checkpoint-variant file-name rule of the
"Checkpoint variants" table (the implementation lives in the external
diffusers library, not in this repository).  With no variant the weight file
is `base.ext`; with a variant `v` the variant name is inserted as a suffix
before the file extension, giving `base.v.ext`. -/
def variantFileName (base ext : String) (variant : Option String) : String :=
  match variant with
  | none => base ++ "." ++ ext
  | some v => base ++ "." ++ v ++ "." ++ ext

/-- A named sub-component entry of the `model_index.json` manifest: the
entry's `name` corresponds to both the component name and the subfolder name,
`library` is the library to load the class from, `cls` is the class name, and
`weight` is the base name and extension of the component's weight file
(`none` for components that are defined purely by configuration files, such
as tokenizers and feature extractors). -/
structure ManifestEntry where
  name : String
  library : String
  cls : String
  weight : Option (String × String)
deriving DecidableEq

/-- The `model_index.json` manifest: the pipeline class to load
(`_class_name`), the diffusers version that created the model
(`_diffusers_version`), and the named sub-component entries. -/
structure Manifest where
  className : String
  diffusersVersion : String
  components : List ManifestEntry
deriving DecidableEq

/-- A model bundle directory: an optional `model_index.json` manifest and the
relative paths of the files it contains. -/
structure Folder where
  manifest : Option Manifest
  files : List String
deriving DecidableEq

/-- A loaded sub-component: the library and class it was instantiated from,
the base name and extension of its weight file, and the on-disk file it was
actually loaded from (`none` when the component has no weight file). -/
structure LoadedComponent where
  library : String
  cls : String
  weight : Option (String × String)
  loadedFrom : Option String
deriving DecidableEq

/-- An assembled pipeline: its class name, the diffusers version, and its
named components (a `none` component is one the caller disabled, such as
`safety_checker=None`). -/
structure Pipeline where
  clsName : String
  version : String
  components : List (String × Option LoadedComponent)
deriving DecidableEq

/-- Modelled from the spec: resolving a manifest entry's on-disk weight file.
The entry's `name` is both the component name and the subfolder name, and the
variant suffix rule picks the file inside that subfolder. -/
def entryWeightFile (e : ManifestEntry) (variant : Option String) : Option String :=
  e.weight.map (fun w => e.name ++ "/" ++ variantFileName w.1 w.2 variant)

/-- Modelled from the spec: loading one sub-component of the bundle.  The
component is instantiated from the entry's library and class; when the entry
has a weight file, the file selected by the variant suffix rule must be
present in the folder, otherwise loading throws an exception because it
cannot find the checkpoint. -/
def loadComponent (folder : Folder) (e : ManifestEntry) (variant : Option String) :
    Except String LoadedComponent :=
  match entryWeightFile e variant with
  | none => .ok ⟨e.library, e.cls, e.weight, none⟩
  | some f =>
      if f ∈ folder.files then
        .ok ⟨e.library, e.cls, e.weight, some f⟩
      else
        .error ("cannot find the checkpoint " ++ f)

/-- Modelled from the spec: loading every manifest entry in order.  A caller
override for a component name takes precedence over the manifest default;
every component without an override is instantiated from its manifest
entry. -/
def loadComponents (folder : Folder) (variant : Option String)
    (overrides : List (String × Option LoadedComponent)) :
    List ManifestEntry → Except String (List (String × Option LoadedComponent))
  | [] => .ok []
  | e :: es =>
      match (match overrides.lookup e.name with
             | some ov => Except.ok (e.name, ov)
             | none => (loadComponent folder e variant).map (fun c => (e.name, some c))) with
      | .error msg => .error msg
      | .ok c => (loadComponents folder variant overrides es).map (fun cs => c :: cs)

/-- Modelled from the spec: `DiffusionPipeline.from_pretrained` (the
implementation lives in the external diffusers library).  It reads the
`model_index.json` manifest, loads each named sub-component — caller
overrides taking precedence over manifest defaults, and the `variant`
argument selecting which weight files are loaded — and returns an instance
of the pipeline class named by the manifest's `_class_name` field. -/
def from_pretrained (folder : Folder) (variant : Option String)
    (overrides : List (String × Option LoadedComponent)) : Except String Pipeline :=
  match folder.manifest with
  | none => .error "model_index.json not found"
  | some m =>
      (loadComponents folder variant overrides m.components).map
        (fun cs => ⟨m.className, m.diffusersVersion, cs⟩)

/-- The component a manifest entry loads into when no override is given: its
library, class and weight description come from the entry, and it is loaded
from the file selected by the variant suffix rule. -/
def loadedOf (e : ManifestEntry) (variant : Option String) : LoadedComponent :=
  ⟨e.library, e.cls, e.weight, entryWeightFile e variant⟩

/-- The component value a manifest entry contributes to the assembled
pipeline: the caller's override when one is given, the manifest default
otherwise. -/
def resolvedComponent (overrides : List (String × Option LoadedComponent))
    (e : ManifestEntry) (variant : Option String) : Option LoadedComponent :=
  match overrides.lookup e.name with
  | some x => x
  | none => some (loadedOf e variant)

/-- The `model_index.json` manifest written for a pipeline: its class name,
version and one entry per present component. -/
def manifestOf (p : Pipeline) : Manifest :=
  ⟨p.clsName, p.version,
    p.components.filterMap (fun c =>
      c.2.map (fun lc => ⟨c.1, lc.library, lc.cls, lc.weight⟩))⟩

/-- Modelled from the spec: `DiffusionPipeline.save_pretrained` with the
`variant` argument (the implementation lives in the external diffusers
library).  It writes the `model_index.json` manifest and, for each component
with weights, the weight file named by the variant suffix rule inside the
component's subfolder; files already in the folder are kept, so a variant can
be saved to the same folder as the original checkpoint. -/
def save_pretrained (p : Pipeline) (folder : Folder) (variant : Option String) : Folder :=
  ⟨some (manifestOf p),
    (manifestOf p).components.filterMap (fun e => entryWeightFile e variant) ++ folder.files⟩

/-- The pipeline obtained by reloading a saved pipeline under a variant:
class, version, component names, libraries, classes and weight descriptions
are unchanged; each component is loaded from the variant's weight file. -/
def reloadedPipeline (p : Pipeline) (variant : Option String) : Pipeline :=
  ⟨p.clsName, p.version,
    p.components.filterMap (fun c =>
      c.2.map (fun lc =>
        (c.1, some (loadedOf ⟨c.1, lc.library, lc.cls, lc.weight⟩ variant))))⟩

/-- A weight tensor of a checkpoint: its shape and its values. -/
structure Tensor where
  shape : List Nat
  data : List Int
deriving DecidableEq

/-- A serialized checkpoint: its serialization format and its named weight
tensors (the names and shapes make up the model structure). -/
structure Checkpoint where
  format : String
  tensors : List (String × Tensor)
deriving DecidableEq

/-- Modelled from the spec: producing a checkpoint variant (a lower-precision
floating point copy or non-EMA weights) stores the same named tensors with
converted weight values, keeping the serialization format, the model
structure and every tensor shape unchanged. -/
def toVariant (c : Checkpoint) (convert : Int → Int) : Checkpoint :=
  ⟨c.format, c.tensors.map (fun t => (t.1, ⟨t.2.shape, t.2.data.map convert⟩))⟩

/-- Floating point precisions relevant to checkpoint loading. -/
inductive Precision
  | fp16
  | fp32
deriving DecidableEq

/-- Modelled from the spec: the precision the downloaded weights are stored
in — `fp16` for the fp16 variant, the default `fp32` otherwise. -/
def storedPrecision (variant : Option String) : Precision :=
  if variant = some "fp16" then .fp16 else .fp32

/-- Modelled from the spec: the precision of the weights after loading —
`torch_dtype` defines it when given; otherwise the weights are converted to
the default `fp32` precision. -/
def loadedPrecision (torchDtype : Option Precision) : Precision :=
  match torchDtype with
  | some d => d
  | none => .fp32

/-- Modelled from the spec: loading weights first downloads them in the
variant's stored precision, then converts them to the precision determined
by `torch_dtype` (the pair is downloaded precision, final precision). -/
def loadWeightsPrecision (variant : Option String) (torchDtype : Option Precision) :
    Precision × Precision :=
  (storedPrecision variant, loadedPrecision torchDtype)

/-- The input `from_pretrained` receives: either a local path to a folder on
disk, or a Hub repository id naming a remote folder. -/
inductive Source
  | localPath (folder : Folder)
  | hubRepo (repoId : String) (remote : Folder)

/-- The outcome of loading: the resulting pipeline (or error) and the list of
files downloaded from the Hub in the process. -/
structure LoadOutcome where
  result : Except String Pipeline
  downloaded : List String

/-- Modelled from the spec: `from_pretrained` dispatching on its input.  When
it detects a local path it reads the folder directly and downloads nothing
from the Hub (so no newer changes to the checkpoint are fetched or cached);
for a Hub repository id it downloads the repository files and loads from
them. -/
def from_pretrained_source (src : Source) (variant : Option String)
    (overrides : List (String × Option LoadedComponent)) : LoadOutcome :=
  match src with
  | .localPath folder => ⟨from_pretrained folder variant overrides, []⟩
  | .hubRepo _ remote => ⟨from_pretrained remote variant overrides, remote.files⟩

/-- Modelled from the spec: `StableDiffusionPipeline.from_pretrained`, the
task-specific loader — it loads the checkpoint's components the same way but
returns an instance of the fixed `StableDiffusionPipeline` class. -/
def StableDiffusionPipeline_from_pretrained (folder : Folder) (variant : Option String)
    (overrides : List (String × Option LoadedComponent)) : Except String Pipeline :=
  match folder.manifest with
  | none => .error "model_index.json not found"
  | some m =>
      (loadComponents folder variant overrides m.components).map
        (fun cs => ⟨"StableDiffusionPipeline", m.diffusersVersion, cs⟩)

/-- Modelled from the spec: weight-file format selection for one component
subfolder.  By default the `.safetensors` weight file is loaded automatically
whenever it is available in the repository (and the safetensors library is
installed), falling back to the `.bin` file; passing `use_safetensors=True`
while the safetensors library is not installed fails with an error message
asking to install it. -/
def selectWeightFile (files : List String) (sub base : String) (variant : Option String)
    (useSafetensors : Option Bool) (installed : Bool) : Except String String :=
  let st := sub ++ "/" ++ variantFileName base "safetensors" variant
  let bin := sub ++ "/" ++ variantFileName base "bin" variant
  match useSafetensors with
  | some true =>
      if installed then
        if st ∈ files then .ok st
        else .error ("cannot find the checkpoint " ++ st)
      else .error "Please install safetensors"
  | some false =>
      if bin ∈ files then .ok bin
      else .error ("cannot find the checkpoint " ++ bin)
  | none =>
      if installed then
        if st ∈ files then .ok st
        else if bin ∈ files then .ok bin
        else .error ("cannot find the checkpoint " ++ bin)
      else if bin ∈ files then .ok bin
      else .error ("cannot find the checkpoint " ++ bin)

/-- The `model_index.json` manifest of the stable-diffusion-v1-5 bundle shown
in the "DiffusionPipeline explained" section. -/
def sd15Manifest : Manifest :=
  ⟨"StableDiffusionPipeline", "0.6.0",
    [⟨"feature_extractor", "transformers", "CLIPImageProcessor", none⟩,
     ⟨"safety_checker", "stable_diffusion", "StableDiffusionSafetyChecker",
       some ("pytorch_model", "bin")⟩,
     ⟨"scheduler", "diffusers", "PNDMScheduler", none⟩,
     ⟨"text_encoder", "transformers", "CLIPTextModel", some ("pytorch_model", "bin")⟩,
     ⟨"tokenizer", "transformers", "CLIPTokenizer", none⟩,
     ⟨"unet", "diffusers", "UNet2DConditionModel", some ("diffusion_pytorch_model", "bin")⟩,
     ⟨"vae", "diffusers", "AutoencoderKL", some ("diffusion_pytorch_model", "bin")⟩]⟩

/-- The stable-diffusion-v1-5 folder with the original (non-variant)
checkpoint files, mirroring the folder structure of the notebook. -/
def sd15Folder : Folder :=
  ⟨some sd15Manifest,
    ["safety_checker/pytorch_model.bin", "text_encoder/pytorch_model.bin",
     "unet/diffusion_pytorch_model.bin", "vae/diffusion_pytorch_model.bin"]⟩

/-- The stable-diffusion-v1-5 folder holding only the fp16 variant files, as
in the variant fallback example of the notebook. -/
def sd15Fp16Folder : Folder :=
  ⟨some sd15Manifest,
    ["safety_checker/pytorch_model.fp16.bin", "text_encoder/pytorch_model.fp16.bin",
     "unet/diffusion_pytorch_model.fp16.bin", "vae/diffusion_pytorch_model.fp16.bin"]⟩

/-- The pipeline assembled from the original stable-diffusion-v1-5 bundle
with no caller overrides. -/
def sd15Pipeline : Pipeline :=
  ⟨"StableDiffusionPipeline", "0.6.0",
    [("feature_extractor", some ⟨"transformers", "CLIPImageProcessor", none, none⟩),
     ("safety_checker", some ⟨"stable_diffusion", "StableDiffusionSafetyChecker",
        some ("pytorch_model", "bin"), some "safety_checker/pytorch_model.bin"⟩),
     ("scheduler", some ⟨"diffusers", "PNDMScheduler", none, none⟩),
     ("text_encoder", some ⟨"transformers", "CLIPTextModel",
        some ("pytorch_model", "bin"), some "text_encoder/pytorch_model.bin"⟩),
     ("tokenizer", some ⟨"transformers", "CLIPTokenizer", none, none⟩),
     ("unet", some ⟨"diffusers", "UNet2DConditionModel",
        some ("diffusion_pytorch_model", "bin"), some "unet/diffusion_pytorch_model.bin"⟩),
     ("vae", some ⟨"diffusers", "AutoencoderKL",
        some ("diffusion_pytorch_model", "bin"), some "vae/diffusion_pytorch_model.bin"⟩)]⟩

/-- A replacement scheduler component, as loaded separately in the notebook's
component-swapping example. -/
def eulerScheduler : LoadedComponent := ⟨"diffusers", "EulerDiscreteScheduler", none, none⟩

/-- Caller overrides from the notebook examples: a replacement scheduler and
a disabled safety checker. -/
def sd15Overrides : List (String × Option LoadedComponent) :=
  [("scheduler", some eulerScheduler), ("safety_checker", none)]

/-- The pipeline assembled from the original stable-diffusion-v1-5 bundle
under the overrides of `sd15Overrides`. -/
def sd15OvPipeline : Pipeline :=
  ⟨"StableDiffusionPipeline", "0.6.0",
    [("feature_extractor", some ⟨"transformers", "CLIPImageProcessor", none, none⟩),
     ("safety_checker", none),
     ("scheduler", some eulerScheduler),
     ("text_encoder", some ⟨"transformers", "CLIPTextModel",
        some ("pytorch_model", "bin"), some "text_encoder/pytorch_model.bin"⟩),
     ("tokenizer", some ⟨"transformers", "CLIPTokenizer", none, none⟩),
     ("unet", some ⟨"diffusers", "UNet2DConditionModel",
        some ("diffusion_pytorch_model", "bin"), some "unet/diffusion_pytorch_model.bin"⟩),
     ("vae", some ⟨"diffusers", "AutoencoderKL",
        some ("diffusion_pytorch_model", "bin"), some "vae/diffusion_pytorch_model.bin"⟩)]⟩

theorem loadComponent_eq_ok {folder : Folder} {e : ManifestEntry} {v : Option String}
    {c : LoadedComponent} (h : loadComponent folder e v = .ok c) : c = loadedOf e v := by
  unfold loadComponent at h
  split at h
  next heq =>
    simp only [Except.ok.injEq] at h
    subst h
    simp [loadedOf, heq]
  next f heq =>
    split at h
    · simp only [Except.ok.injEq] at h
      subst h
      simp [loadedOf, heq]
    · simp at h

theorem loadComponent_of_present {folder : Folder} {e : ManifestEntry} {v : Option String}
    (h : ∀ f, entryWeightFile e v = some f → f ∈ folder.files) :
    loadComponent folder e v = .ok (loadedOf e v) := by
  unfold loadComponent
  cases hf : entryWeightFile e v with
  | none => simp [loadedOf, hf]
  | some f => simp [loadedOf, hf, h f hf]

theorem loadComponent_ok_present {folder : Folder} {e : ManifestEntry} {v : Option String}
    {c : LoadedComponent} {f : String} (h : loadComponent folder e v = .ok c)
    (hf : entryWeightFile e v = some f) : f ∈ folder.files := by
  unfold loadComponent at h
  rw [hf] at h
  by_cases hmem : f ∈ folder.files
  · exact hmem
  · simp [hmem] at h

theorem loadComponents_of_present (folder : Folder) (v : Option String)
    (ov : List (String × Option LoadedComponent)) (es : List ManifestEntry)
    (h : ∀ e ∈ es, ov.lookup e.name = none →
          ∀ f, entryWeightFile e v = some f → f ∈ folder.files) :
    loadComponents folder v ov es
      = .ok (es.map (fun e => (e.name, resolvedComponent ov e v))) := by
  induction es with
  | nil => rfl
  | cons e es ih =>
      have hrec := ih (fun x hx => h x (List.mem_cons_of_mem _ hx))
      rw [loadComponents]
      cases hov : ov.lookup e.name with
      | some x => simp [hov, hrec, resolvedComponent, Except.map]
      | none =>
          have hc := loadComponent_of_present (h e (List.mem_cons_self _ _) hov)
          simp [hov, hc, hrec, resolvedComponent, Except.map]

theorem loadComponents_eq_ok (folder : Folder) (v : Option String)
    (ov : List (String × Option LoadedComponent)) (es : List ManifestEntry)
    (cs : List (String × Option LoadedComponent))
    (h : loadComponents folder v ov es = .ok cs) :
    cs = es.map (fun e => (e.name, resolvedComponent ov e v)) := by
  induction es generalizing cs with
  | nil =>
      simp only [loadComponents, Except.ok.injEq] at h
      simp [h.symm]
  | cons e es ih =>
      rw [loadComponents] at h
      cases hov : ov.lookup e.name with
      | some x =>
          rw [hov] at h
          cases hrec : loadComponents folder v ov es <;> rw [hrec] at h
          · simp [Except.map] at h
          · simp only [Except.map, Except.ok.injEq] at h
            simp [h.symm, resolvedComponent, hov, ih _ hrec]
      | none =>
          rw [hov] at h
          cases hc : loadComponent folder e v <;> rw [hc] at h
          · simp [Except.map] at h
          · cases hrec : loadComponents folder v ov es <;> rw [hrec] at h
            · simp [Except.map] at h
            · simp only [Except.map, Except.ok.injEq] at h
              simp [h.symm, resolvedComponent, hov, ih _ hrec, loadComponent_eq_ok hc]

theorem loadComponents_files_present (folder : Folder) (v : Option String)
    (ov : List (String × Option LoadedComponent)) (es : List ManifestEntry)
    (cs : List (String × Option LoadedComponent))
    (h : loadComponents folder v ov es = .ok cs) :
    ∀ e ∈ es, ov.lookup e.name = none →
      ∀ f, entryWeightFile e v = some f → f ∈ folder.files := by
  induction es generalizing cs with
  | nil => intro e he; cases he
  | cons e es ih =>
      intro x hx hlk f hf
      rw [loadComponents] at h
      cases hov : ov.lookup e.name with
      | some y =>
          rw [hov] at h
          cases hrec : loadComponents folder v ov es <;> rw [hrec] at h
          · simp [Except.map] at h
          · cases hx with
            | head =>
                rw [hlk] at hov
                cases hov
            | tail _ hx => exact ih _ hrec x hx hlk f hf
      | none =>
          rw [hov] at h
          cases hc : loadComponent folder e v <;> rw [hc] at h
          · simp [Except.map] at h
          · cases hrec : loadComponents folder v ov es <;> rw [hrec] at h
            · simp [Except.map] at h
            · cases hx with
              | head => exact loadComponent_ok_present hc hf
              | tail _ hx => exact ih _ hrec x hx hlk f hf

theorem resolvedComponent_nil (e : ManifestEntry) (v : Option String) :
    resolvedComponent [] e v = some (loadedOf e v) := rfl

theorem saved_variant_present (p : Pipeline) (f₀ : Folder) (v : Option String) :
    ∀ e ∈ (manifestOf p).components, ∀ f, entryWeightFile e v = some f →
      f ∈ (save_pretrained p f₀ v).files := by
  intro e he f hf
  exact List.mem_append_left _ (List.mem_filterMap.mpr ⟨e, he, hf⟩)

theorem save_keeps_files (p : Pipeline) (f₀ : Folder) (v : Option String) :
    ∀ f ∈ f₀.files, f ∈ (save_pretrained p f₀ v).files := by
  intro f hf
  exact List.mem_append_right _ hf

theorem reloaded_components (p : Pipeline) (w : Option String) :
    (manifestOf p).components.map (fun e => (e.name, some (loadedOf e w)))
      = (reloadedPipeline p w).components := by
  simp only [manifestOf, reloadedPipeline, List.map_filterMap]
  congr 1
  funext c
  cases hc : c.2 <;> simp

theorem from_pretrained_of_saved (p : Pipeline) (folder : Folder) (w : Option String)
    (hman : folder.manifest = some (manifestOf p))
    (h : ∀ e ∈ (manifestOf p).components, ∀ f, entryWeightFile e w = some f →
          f ∈ folder.files) :
    from_pretrained folder w [] = .ok (reloadedPipeline p w) := by
  have hl := loadComponents_of_present folder w [] (manifestOf p).components
    (fun e he _ f hf => h e he f hf)
  have hcomp : (manifestOf p).components.map
      (fun e => (e.name, resolvedComponent [] e w)) = (reloadedPipeline p w).components :=
    reloaded_components p w
  unfold from_pretrained
  rw [hman]
  show Except.map (fun cs => Pipeline.mk (manifestOf p).className
      (manifestOf p).diffusersVersion cs) (loadComponents folder w [] (manifestOf p).components)
    = Except.ok (reloadedPipeline p w)
  rw [hl]
  show Except.ok (Pipeline.mk (manifestOf p).className (manifestOf p).diffusersVersion
      ((manifestOf p).components.map (fun e => (e.name, resolvedComponent [] e w))))
    = Except.ok (reloadedPipeline p w)
  rw [hcomp]
  rfl

/-- Claim C1: for every component weight file and every supported variant the
loader resolves the on-disk weight file name by the variant suffix rule, and
the variant argument alone determines which file a manifest entry loads: with
no variant the original diffusion_pytorch_model.bin is selected, with variant
fp16 the file diffusion_pytorch_model.fp16.bin, and with variant non_ema the
file diffusion_pytorch_model.non_ema.bin — the variant name is inserted as a
suffix before the file extension. -/
theorem variant_suffix_rule (base ext v : String) (e : ManifestEntry) :
    variantFileName base ext none = base ++ "." ++ ext
    ∧ variantFileName base ext (some v) = base ++ "." ++ v ++ "." ++ ext
    ∧ variantFileName "diffusion_pytorch_model" "bin" none = "diffusion_pytorch_model.bin"
    ∧ variantFileName "diffusion_pytorch_model" "bin" (some "fp16")
        = "diffusion_pytorch_model.fp16.bin"
    ∧ variantFileName "diffusion_pytorch_model" "bin" (some "non_ema")
        = "diffusion_pytorch_model.non_ema.bin"
    ∧ entryWeightFile e (some v)
        = e.weight.map (fun w => e.name ++ "/" ++ (w.1 ++ "." ++ v ++ "." ++ w.2))
    ∧ entryWeightFile e none
        = e.weight.map (fun w => e.name ++ "/" ++ (w.1 ++ "." ++ w.2)) :=
  ⟨rfl, rfl, by rfl, by rfl, by rfl, rfl, rfl⟩

/-- Claim C2: for a bundle directory with a model_index.json manifest,
from_pretrained returns an instance of exactly the pipeline class named by
the manifest's _class_name field, and every non-underscore manifest entry
contributes a component whose name is the entry's name, loaded from the
subfolder of that same name, with the entry's library and class fields
determining the class it is instantiated from. -/
theorem from_pretrained_follows_manifest (folder : Folder) (m : Manifest)
    (v : Option String) (p : Pipeline)
    (hm : folder.manifest = some m)
    (hp : from_pretrained folder v [] = .ok p) :
    p.clsName = m.className
    ∧ p.components = m.components.map (fun e => (e.name, some (loadedOf e v))) := by
  unfold from_pretrained at hp
  rw [hm] at hp
  have hp2 : Except.map (fun cs => Pipeline.mk m.className m.diffusersVersion cs)
      (loadComponents folder v [] m.components) = Except.ok p := hp
  cases hl : loadComponents folder v [] m.components <;> rw [hl] at hp2
  · simp [Except.map] at hp2
  · simp only [Except.map, Except.ok.injEq] at hp2
    have hcs := loadComponents_eq_ok folder v [] m.components _ hl
    refine ⟨?_, ?_⟩
    · rw [← hp2]
    · rw [← hp2]
      simp [hcs, resolvedComponent_nil]

/-- Witness for claim C2 at the concrete stable-diffusion-v1-5 bundle. -/
theorem from_pretrained_follows_manifest_witness :
    from_pretrained sd15Folder none [] = .ok sd15Pipeline
    ∧ sd15Pipeline.clsName = sd15Manifest.className
    ∧ sd15Pipeline.components
        = sd15Manifest.components.map (fun e => (e.name, some (loadedOf e none))) := by
  have hload : from_pretrained sd15Folder none [] = .ok sd15Pipeline := by rfl
  have h := from_pretrained_follows_manifest sd15Folder sd15Manifest none sd15Pipeline rfl hload
  exact ⟨hload, h.1, h.2⟩

/-- Claim C3: caller-supplied component arguments take precedence over the
manifest defaults — the assembled pipeline contains exactly the caller's
value for every overridden component (including a disabled component passed
as none), and every component without an override is instantiated from its
manifest entry. -/
theorem overrides_take_precedence (folder : Folder) (m : Manifest) (v : Option String)
    (ov : List (String × Option LoadedComponent)) (p : Pipeline)
    (hm : folder.manifest = some m)
    (hp : from_pretrained folder v ov = .ok p) :
    p.components = m.components.map (fun e => (e.name, resolvedComponent ov e v)) := by
  unfold from_pretrained at hp
  rw [hm] at hp
  have hp2 : Except.map (fun cs => Pipeline.mk m.className m.diffusersVersion cs)
      (loadComponents folder v ov m.components) = Except.ok p := hp
  cases hl : loadComponents folder v ov m.components <;> rw [hl] at hp2
  · simp [Except.map] at hp2
  · simp only [Except.map, Except.ok.injEq] at hp2
    rw [← hp2]
    exact loadComponents_eq_ok folder v ov m.components _ hl

/-- Witness for claim C3: swapping the scheduler and disabling the safety
checker on the concrete stable-diffusion-v1-5 bundle. -/
theorem overrides_take_precedence_witness :
    from_pretrained sd15Folder none sd15Overrides = .ok sd15OvPipeline
    ∧ sd15OvPipeline.components
        = sd15Manifest.components.map
            (fun e => (e.name, resolvedComponent sd15Overrides e none))
    ∧ sd15OvPipeline.components.lookup "scheduler" = some (some eulerScheduler)
    ∧ sd15OvPipeline.components.lookup "safety_checker" = some none := by
  have hload : from_pretrained sd15Folder none sd15Overrides = .ok sd15OvPipeline := by rfl
  have h := overrides_take_precedence sd15Folder sd15Manifest none sd15Overrides
    sd15OvPipeline rfl hload
  exact ⟨hload, h, rfl, rfl⟩

/-- Claim C4: when the target folder lacks an original (non-variant)
checkpoint file, from_pretrained without a variant argument throws an
exception because it cannot find the original checkpoint, while the same
call with the matching variant argument succeeds. -/
theorem missing_original_checkpoint (folder : Folder) (m : Manifest) (v : String)
    (e : ManifestEntry) (f : String)
    (hm : folder.manifest = some m)
    (he : e ∈ m.components)
    (hf : entryWeightFile e none = some f)
    (hmiss : f ∉ folder.files)
    (hvar : ∀ x ∈ m.components, ∀ g,
      entryWeightFile x (some v) = some g → g ∈ folder.files) :
    (from_pretrained folder none []).isOk = false
    ∧ from_pretrained folder (some v) []
        = .ok ⟨m.className, m.diffusersVersion,
               m.components.map (fun x => (x.name, some (loadedOf x (some v))))⟩ := by
  constructor
  · cases hl : loadComponents folder none [] m.components with
    | error msg =>
        unfold from_pretrained
        rw [hm]
        show (Except.map (fun cs => Pipeline.mk m.className m.diffusersVersion cs)
          (loadComponents folder none [] m.components)).isOk = false
        rw [hl]
        rfl
    | ok cs =>
        exact absurd
          (loadComponents_files_present folder none [] m.components cs hl e he rfl f hf)
          hmiss
  · unfold from_pretrained
    rw [hm]
    show Except.map (fun cs => Pipeline.mk m.className m.diffusersVersion cs)
        (loadComponents folder (some v) [] m.components)
      = Except.ok ⟨m.className, m.diffusersVersion,
          m.components.map (fun x => (x.name, some (loadedOf x (some v))))⟩
    rw [loadComponents_of_present folder (some v) [] m.components
      (fun x hx _ g hg => hvar x hx g hg)]
    rfl

/-- Witness for claim C4 at a stable-diffusion-v1-5 folder holding only the
fp16 variant files. -/
theorem missing_original_checkpoint_witness :
    (from_pretrained sd15Fp16Folder none []).isOk = false
    ∧ from_pretrained sd15Fp16Folder (some "fp16") []
        = .ok ⟨sd15Manifest.className, sd15Manifest.diffusersVersion,
               sd15Manifest.components.map
                 (fun x => (x.name, some (loadedOf x (some "fp16"))))⟩ := by
  have hvar : ∀ x ∈ sd15Manifest.components, ∀ g,
      entryWeightFile x (some "fp16") = some g → g ∈ sd15Fp16Folder.files := by
    intro x hx g hg
    fin_cases hx <;> simp [entryWeightFile, variantFileName] at hg <;> subst hg <;> decide
  have hmem : (⟨"safety_checker", "stable_diffusion", "StableDiffusionSafetyChecker",
      some ("pytorch_model", "bin")⟩ : ManifestEntry) ∈ sd15Manifest.components := by
    simp [sd15Manifest]
  have hmiss : "safety_checker/pytorch_model.bin" ∉ sd15Fp16Folder.files := by decide
  exact missing_original_checkpoint sd15Fp16Folder sd15Manifest "fp16" _ _
    rfl hmem rfl hmiss hvar

/-- Claim C5: for every pipeline and every variant v, saving with
save_pretrained under variant v and reloading with variant v loads the
variant back; and after saving the original and the variant into the same
folder, both can be loaded from that single folder — the original with no
variant argument and the variant with variant v. -/
theorem save_load_roundtrip (p : Pipeline) (f₀ : Folder) (v : String) :
    from_pretrained (save_pretrained p f₀ (some v)) (some v) []
        = .ok (reloadedPipeline p (some v))
    ∧ from_pretrained (save_pretrained p (save_pretrained p f₀ none) (some v)) none []
        = .ok (reloadedPipeline p none)
    ∧ from_pretrained (save_pretrained p (save_pretrained p f₀ none) (some v)) (some v) []
        = .ok (reloadedPipeline p (some v)) := by
  refine ⟨?_, ?_, ?_⟩
  · exact from_pretrained_of_saved p _ (some v) rfl (saved_variant_present p f₀ (some v))
  · exact from_pretrained_of_saved p _ none rfl
      (fun e he f hf => save_keeps_files p (save_pretrained p f₀ none) (some v) f
        (saved_variant_present p f₀ none e he f hf))
  · exact from_pretrained_of_saved p _ (some v) rfl
      (saved_variant_present p (save_pretrained p f₀ none) (some v))

/-- Claim C6: a checkpoint variant is identical to the original checkpoint in
everything except its weight values — it keeps exactly the same serialization
format, the same model structure (the named tensors), and weights with
identical tensor shapes. -/
theorem variant_identical_except_weights (c : Checkpoint) (convert : Int → Int) :
    (toVariant c convert).format = c.format
    ∧ (toVariant c convert).tensors.map Prod.fst = c.tensors.map Prod.fst
    ∧ (toVariant c convert).tensors.map (fun t => t.2.shape)
        = c.tensors.map (fun t => t.2.shape) := by
  refine ⟨rfl, ?_, ?_⟩ <;> simp [toVariant, Function.comp]

/-- Claim C7: loading the fp16 variant with torch_dtype float16 keeps the
weights in fp16; loading it without torch_dtype converts them to the default
fp32 precision; and loading the original checkpoint with torch_dtype float16
downloads the default fp32 weights first and converts them to fp16 after
loading. -/
theorem torch_dtype_precision :
    loadWeightsPrecision (some "fp16") (some Precision.fp16)
        = (Precision.fp16, Precision.fp16)
    ∧ loadWeightsPrecision (some "fp16") none = (Precision.fp16, Precision.fp32)
    ∧ loadWeightsPrecision none (some Precision.fp16)
        = (Precision.fp32, Precision.fp16) :=
  ⟨rfl, rfl, rfl⟩

/-- Claim C8: when from_pretrained detects a local path it downloads no files
from the Hub — loading is served entirely from the local folder, so no newer
changes to the checkpoint are downloaded or cached. -/
theorem local_path_no_download (folder : Folder) (v : Option String)
    (ov : List (String × Option LoadedComponent)) :
    (from_pretrained_source (.localPath folder) v ov).downloaded = []
    ∧ (from_pretrained_source (.localPath folder) v ov).result
        = from_pretrained folder v ov :=
  ⟨rfl, rfl⟩

/-- Claim C9: for a Stable Diffusion checkpoint, the generic
DiffusionPipeline.from_pretrained — which detects the pipeline class from the
manifest — returns the same result as the task-specific
StableDiffusionPipeline.from_pretrained. -/
theorem auto_class_detection (folder : Folder) (m : Manifest) (v : Option String)
    (ov : List (String × Option LoadedComponent))
    (hm : folder.manifest = some m)
    (hcls : m.className = "StableDiffusionPipeline") :
    from_pretrained folder v ov = StableDiffusionPipeline_from_pretrained folder v ov := by
  unfold from_pretrained StableDiffusionPipeline_from_pretrained
  rw [hm]
  show Except.map (fun cs => Pipeline.mk m.className m.diffusersVersion cs)
      (loadComponents folder v ov m.components)
    = Except.map (fun cs => Pipeline.mk "StableDiffusionPipeline" m.diffusersVersion cs)
      (loadComponents folder v ov m.components)
  rw [hcls]

/-- Witness for claim C9 at the concrete stable-diffusion-v1-5 bundle. -/
theorem auto_class_detection_witness :
    sd15Folder.manifest = some sd15Manifest
    ∧ sd15Manifest.className = "StableDiffusionPipeline"
    ∧ from_pretrained sd15Folder none []
        = StableDiffusionPipeline_from_pretrained sd15Folder none [] :=
  ⟨rfl, rfl, auto_class_detection sd15Folder sd15Manifest none [] rfl rfl⟩

/-- Claim C10: by default from_pretrained automatically loads the
.safetensors weight file of a component subfolder whenever it is available in
the model repository, and passing use_safetensors true while the safetensors
library is not installed fails with an error message asking to install
it. -/
theorem safetensors_selection (files : List String) (sub base : String) (v : Option String)
    (hst : (sub ++ "/" ++ variantFileName base "safetensors" v) ∈ files) :
    selectWeightFile files sub base v none true
      = .ok (sub ++ "/" ++ variantFileName base "safetensors" v)
    ∧ selectWeightFile files sub base v (some true) false
        = .error "Please install safetensors" := by
  constructor
  · simp [selectWeightFile, hst]
  · rfl

/-- The unet subfolder of stable-diffusion-v1-5 stores both a safetensors
and a pickled weight file. -/
def sd15UnetFiles : List String :=
  ["unet/diffusion_pytorch_model.safetensors", "unet/diffusion_pytorch_model.bin"]

/-- Witness for claim C10 at the concrete unet subfolder contents. -/
theorem safetensors_selection_witness :
    selectWeightFile sd15UnetFiles "unet" "diffusion_pytorch_model" none none true
      = .ok "unet/diffusion_pytorch_model.safetensors"
    ∧ selectWeightFile sd15UnetFiles "unet" "diffusion_pytorch_model" none (some true) false
        = .error "Please install safetensors" := by
  have hst : ("unet" ++ "/" ++ variantFileName "diffusion_pytorch_model" "safetensors" none)
      ∈ sd15UnetFiles := by decide
  have h := safetensors_selection sd15UnetFiles "unet" "diffusion_pytorch_model" none hst
  exact ⟨h.1, h.2⟩

end DiffusersLoader
